import Mathlib

/-!
Verification of the small-shell job-control core (src/smallsh.c).

Strings from the C program are modelled as `List Char` (a C string up to its
terminating NUL).  C `int` values (status, signal numbers, pids, the global
`foreground` flag, file descriptors) are modelled as `Int`.  Every printf /
write the program performs is modelled as an abstract `Msg` value whose
constructor corresponds to one format string of the source; `kill` and
blocking `waitpid` calls are modelled as `Action` values.
-/

namespace Smallsh

/-- Model of a single call `strtok(s, d)` on a fresh buffer holding `s`, where
the delimiter string consists of the single character `d` (repeated delimiter
characters in the C delimiter string are redundant, so this also models
`strtok(s, "$$")`): the returned token, i.e. the maximal run of
non-delimiter characters after the leading delimiters, or `none` when the
string holds no token. -/
def strtokTok (d : Char) (s : List Char) : Option (List Char) :=
  if ((s.dropWhile (fun c => c == d)).takeWhile (fun c => c != d)).isEmpty then none
  else some ((s.dropWhile (fun c => c == d)).takeWhile (fun c => c != d))

/-- Model of the buffer contents (as a C string) after a single call
`strtok(s, d)`: `strtok` writes a NUL over the delimiter that terminates the
first token, so afterwards the buffer reads as the leading delimiters followed
by the first token.  When there is no token, or when the token runs to the end
of the string, nothing is written and the buffer still reads as `s`. -/
def strtokMut (d : Char) (s : List Char) : List Char :=
  if ((s.dropWhile (fun c => c == d)).takeWhile (fun c => c != d)).isEmpty then s
  else if ((s.dropWhile (fun c => c == d)).dropWhile (fun c => c != d)).isEmpty then s
  else s.takeWhile (fun c => c == d) ++ (s.dropWhile (fun c => c == d)).takeWhile (fun c => c != d)

/-- Model of `strstr(s, "$$")` (smallsh.c line 452/458): the suffix of `s`
starting at the first occurrence of two adjacent dollar signs, or `none`. -/
def strstrDollars : List Char → Option (List Char)
  | [] => none
  | [_] => none
  | c :: d :: rest =>
    if c == '$' && d == '$' then some (c :: d :: rest) else strstrDollars (d :: rest)

/-- One pass of the `$$`-expansion loop of `parseInput` (smallsh.c lines
458-479), with explicit fuel.  Each iteration copies `substring =
strstr(inputCopy, "$$")`, then appends `strtok(inputCopy, "$$")` (the text
before the first dollar sign) and the pid string to the accumulator, then
appends the first `"$$"`-token of `substring`, and finally continues on the
mutated `inputCopy` buffer.  `none` models undefined behaviour: either
`strcat(inputPID, NULL)` when `strtok` returns NULL, or fuel exhaustion, which
only happens when the C loop never terminates (the buffer stops changing while
still containing `$$`). -/
def pidExpandLoop : Nat → List Char → List Char → List Char → Option (List Char)
  | 0, _, _, _ => none
  | Nat.succ fuel, pidString, inputCopy, acc =>
    match strstrDollars inputCopy with
    | none => some acc
    | some substring =>
      match strtokTok '$' inputCopy with
      | none => none
      | some copyToken =>
        let acc2 := (acc ++ copyToken) ++ pidString
        let acc3 :=
          match strtokTok '$' substring with
          | some substringToken => acc2 ++ substringToken
          | none => acc2
        pidExpandLoop fuel pidString (strtokMut '$' inputCopy) acc3

/-- The `$$` expansion stage of `parseInput` (smallsh.c lines 442-479): if the
line contains no `$$`, it is copied unchanged; otherwise the expansion loop
runs starting from an empty `inputPID` accumulator. -/
def expandDollars (pidString input : List Char) : Option (List Char) :=
  match strstrDollars input with
  | none => some input
  | some _ => pidExpandLoop (input.length + 2) pidString input []

/-- One step of repeated `strtok(NULL, " ")` calls: the list of space-separated
tokens of `s`, with fuel (the length of the string suffices, since every
produced token consumes at least one character). -/
def tokenizeGo : Nat → List Char → List (List Char)
  | 0, _ => []
  | Nat.succ fuel, s =>
    let rest := s.dropWhile (fun c => c == ' ')
    let tok := rest.takeWhile (fun c => c != ' ')
    if tok.isEmpty then []
    else tok :: tokenizeGo fuel (rest.dropWhile (fun c => c != ' '))

/-- The sequence of tokens produced by tokenizing a line with
`strtok(.., " ")`, as the command-building loop of `parseInput` does
(smallsh.c lines 482-541). -/
def tokenize (s : List Char) : List (List Char) :=
  tokenizeGo s.length s

/-- The `struct command` of smallsh.c (lines 38-46): `ampersand` is the C int
flag, `true` iff it was set to 1. -/
structure Command where
  command : List Char
  arguments : List (List Char)
  inputFile : Option (List Char)
  outputFile : Option (List Char)
  ampersand : Bool
deriving DecidableEq, Repr

/-- The `struct processes` of smallsh.c (lines 55-65), restricted to the
fields the program actually uses: the first `pidCount` entries of
`backgroundPids` as a list, plus `status` and `signal`.  (The `exitedPids` and
`exitedCount` fields are never read or written by the program.) -/
structure Processes where
  backgroundPids : List Int
  status : Int
  signal : Int
deriving DecidableEq, Repr

/-- Abstract rendering of every message the program can print; each
constructor corresponds to one printf/write format string of smallsh.c. -/
inductive Msg where
  | newline
  | errorFindingDir
  | exitValue (n : Int)
  | termBySignal (s : Int)
  | cannotOpenInput (path : List Char)
  | forkFailed
  | commandNotFound
  | childTermSignal (s : Int)
  | backgroundIs (pid : Int)
  | processTermSignal (pid s : Int)
  | processEnded (pid code : Int)
  | enteringFg
  | exitingFg
deriving DecidableEq, Repr

/-- A process-management system call the shell issues: `kill(pid, sig)` or a
blocking `waitpid(pid, ..)`. -/
inductive Action where
  | kill (pid sig : Int)
  | waitBlocking (pid : Int)
deriving DecidableEq, Repr

/-- Outcome of a terminated child as decoded by `WIFSIGNALED` /
`WTERMSIG` / `WEXITSTATUS`. -/
inductive WaitOutcome where
  | exited (code : Int)
  | signaled (sig : Int)
deriving DecidableEq, Repr

/-- The state of the command-building loop of `parseInput` (smallsh.c lines
484-541): the fields of the `struct command` under construction. -/
structure BuildState where
  arguments : List (List Char)
  inputFile : Option (List Char)
  outputFile : Option (List Char)
  ampersand : Bool
deriving DecidableEq, Repr

/-- The token-classification loop of `parseInput` (smallsh.c lines 500-541),
over the tokens after the command name.  `<` and `>` consume the following
token as a redirect path; a `&` token is consumed, and sets the background
flag only when it is the last token and the global `foreground` flag is 0;
every other token is appended to `arguments`.  `none` models the undefined
`strlen(NULL)` when `<` or `>` is the final token. -/
def buildLoop (fg : Int) : List (List Char) → BuildState → Option BuildState
  | [], st => some st
  | t :: rest, st =>
    if t = ("<".data) then
      match rest with
      | [] => none
      | f :: rest2 => buildLoop fg rest2 { st with inputFile := some f }
    else if t = (">".data) then
      match rest with
      | [] => none
      | f :: rest2 => buildLoop fg rest2 { st with outputFile := some f }
    else if t = ("&".data) then
      match rest with
      | [] => some (if fg = 0 then { st with ampersand := true } else st)
      | _ :: _ => buildLoop fg rest st
    else
      buildLoop fg rest { st with arguments := st.arguments ++ [t] }

/-- What `parseInput` decides to do with a line: the early no-op returns, the
builtin dispatches, or handing a `struct command` to `otherCommands`.
`crash` models the undefined behaviour paths (`strcat`/`strlen`/`strcpy` on
NULL, or the non-terminating expansion loop). -/
inductive ParseResult where
  | crash
  | blankEcho
  | noop
  | comment
  | runExit
  | runCd (cmd : Command)
  | runStatus
  | runOther (cmd : Command)
deriving DecidableEq, Repr

/-- The builtin-name comparison and construction of the final `Command` at the
end of `parseInput` (smallsh.c lines 485-495 and 547-566). -/
def dispatchName (t : List Char) (st : BuildState) : ParseResult :=
  let cmd : Command := ⟨t, st.arguments, st.inputFile, st.outputFile, st.ampersand⟩
  if t = ("exit".data) then ParseResult.runExit
  else if t = ("cd".data) then ParseResult.runCd cmd
  else if t = ("status".data) then ParseResult.runStatus
  else ParseResult.runOther cmd

/-- `parseInput` (smallsh.c lines 402-570).  The blank-line check
`strcmp(input, "\n")` runs on the buffer already mutated by
`strtok(input, " ")` at line 411; the comment check `strncmp(input, "#", 1)`
examines the first character of that same buffer; the `$$` expansion runs on
the pristine copy `inputCopy` saved at line 408. -/
def parseInput (fg : Int) (pidString input : List Char) : ParseResult :=
  if strtokMut ' ' input = ['\n'] then ParseResult.blankEcho
  else
    match strtokTok ' ' input with
    | none => ParseResult.noop
    | some _ =>
      if (strtokMut ' ' input).head? = some '#' then ParseResult.comment
      else
        match expandDollars pidString input with
        | none => ParseResult.crash
        | some inputPID =>
          match tokenize inputPID with
          | [] => ParseResult.crash
          | t :: rest =>
            match buildLoop fg rest (BuildState.mk [t] none none false) with
            | none => ParseResult.crash
            | some st => dispatchName t st

/-- What `parseInput` itself prints before any dispatch: the blank-line branch
echoes one newline (smallsh.c line 428), everything else prints nothing. -/
def parseOutput : ParseResult → List Msg
  | ParseResult.blankEcho => [Msg.newline]
  | _ => []

/-- `exitShell` (smallsh.c lines 105-116): the system calls it performs —
`kill(pid, SIGKILL)` for each tracked background pid, in order, accumulated
exactly as the C `for` loop does.  SIGKILL is 9.  The function performs no
`waitpid` and does not modify the `processes` structure. -/
def exitShellActions (procs : Processes) : List Action :=
  procs.backgroundPids.foldl (fun acc p => acc ++ [Action.kill p 9]) []

/-- `cdShell` (smallsh.c lines 130-149): the messages it prints, given the
result of the `chdir` call on `arguments[1]` (−1 on failure).  With no
argument it calls `chdir(getenv("HOME"))` and prints nothing; the function
never receives (so cannot modify) the `processes` structure. -/
def cdShellMsgs (cmd : Command) (chdirResult : Int) : List Msg :=
  match cmd.arguments.get? 1 with
  | none => []
  | some _ => if chdirResult = -1 then [Msg.errorFindingDir] else []

/-- `statusShell` (smallsh.c lines 163-180): status 0 and 1 print
`exit value 0` / `exit value 1`; every other stored status value falls into
the `else` branch, which prints `terminated by signal <signal>` (the author
uses status 2 as the signalled-child sentinel). -/
def statusMsg (procs : Processes) : Msg :=
  if procs.status = 0 then Msg.exitValue 0
  else if procs.status = 1 then Msg.exitValue 1
  else Msg.termBySignal procs.signal

/-- The builtin dispatch of `parseInput` (smallsh.c lines 547-562): the
`processes` structure after the builtin runs, the messages printed and the
process-management calls issued.  `none` for the non-builtin results. -/
def runBuiltin (res : ParseResult) (chdirResult : Int) (procs : Processes) :
    Option (Processes × List Msg × List Action) :=
  match res with
  | ParseResult.runExit => some (procs, [], exitShellActions procs)
  | ParseResult.runCd cmd => some (procs, cdShellMsgs cmd chdirResult, [])
  | ParseResult.runStatus => some (procs, [statusMsg procs], [])
  | _ => none

/-- The result of the redirect-opening stage of `otherCommands` (smallsh.c
lines 196-225): whether the function returned before the fork, what it
printed, the resulting `status` field, and the two descriptor variables. -/
structure PrepResult where
  abandoned : Bool
  printed : List Msg
  status : Int
  sourceFD : Int
  targetFD : Int
deriving DecidableEq, Repr

/-- The redirect-opening stage of `otherCommands` (smallsh.c lines 196-225).
`openIn f` / `openOut f` give the descriptor returned by
`open(f, O_RDONLY)` / `open(f, O_WRONLY|O_CREAT|O_TRUNC, 0644)`, −1 on
failure; `sourceFD0`/`targetFD0` are the indeterminate initial values of the
two uninitialised locals.  Note the output branch tests `sourceFD == -1`
(line 219), exactly as the C does, and prints nothing in its error path. -/
def openingStage (cmd : Command) (status0 : Int) (openIn openOut : List Char → Int)
    (sourceFD0 targetFD0 : Int) : PrepResult :=
  match cmd.inputFile with
  | some f =>
    let sFD := openIn f
    if sFD = -1 then
      { abandoned := true, printed := [Msg.cannotOpenInput f], status := 1,
        sourceFD := sFD, targetFD := targetFD0 }
    else
      match cmd.outputFile with
      | some g =>
        let tFD := openOut g
        if sFD = -1 then
          { abandoned := true, printed := [], status := 1, sourceFD := sFD, targetFD := tFD }
        else
          { abandoned := false, printed := [], status := status0, sourceFD := sFD, targetFD := tFD }
      | none =>
        { abandoned := false, printed := [], status := status0, sourceFD := sFD, targetFD := targetFD0 }
  | none =>
    match cmd.outputFile with
    | some g =>
      let tFD := openOut g
      if sourceFD0 = -1 then
        { abandoned := true, printed := [], status := 1, sourceFD := sourceFD0, targetFD := tFD }
      else
        { abandoned := false, printed := [], status := status0, sourceFD := sourceFD0, targetFD := tFD }
    | none =>
      { abandoned := false, printed := [], status := status0,
        sourceFD := sourceFD0, targetFD := targetFD0 }

/-- The post-fork null-device substitution of `otherCommands` (smallsh.c lines
231-241), run when `ampersand == 1`: when `outputFile` is NULL the code
stores `open("/dev/null/", O_RDONLY)` into `sourceFD`, and when `inputFile`
is NULL it stores `open("/dev/null/", O_WRONLY|O_CREAT|O_TRUNC, 0644)` into
`targetFD` — exactly as written, with the two conditions crossed.
`nullReadFD` / `nullWriteFD` are the results of those two `open` calls. -/
def nullDeviceSubst (cmd : Command) (nullReadFD nullWriteFD sourceFD targetFD : Int) :
    Int × Int :=
  if cmd.ampersand then
    ((if cmd.outputFile = none then nullReadFD else sourceFD),
     (if cmd.inputFile = none then nullWriteFD else targetFD))
  else (sourceFD, targetFD)

/-- The descriptor duplications the child performs before `execvp`
(smallsh.c lines 279-303): `dup2(sourceFD, 0)` only when `inputFile` is set,
`dup2(targetFD, 1)` only when `outputFile` is set.  Each pair is
(descriptor, standard stream it is duplicated onto). -/
def childDupActions (cmd : Command) (sourceFD targetFD : Int) : List (Int × Int) :=
  (if cmd.inputFile.isSome then [(sourceFD, 0)] else []) ++
    (if cmd.outputFile.isSome then [(targetFD, 1)] else [])

/-- The foreground parent branch of `otherCommands` after `waitpid` returns
(smallsh.c lines 352-369): on a signalled child it prints
`Child terminated with signal <n>` and stores signal `n` with the sentinel
status 2; on a normal exit it stores `WEXITSTATUS` into `status`. -/
def foregroundUpdate (procs : Processes) (w : WaitOutcome) : Processes × List Msg :=
  match w with
  | WaitOutcome.signaled s =>
    ({ procs with signal := s, status := 2 }, [Msg.childTermSignal s])
  | WaitOutcome.exited c =>
    ({ procs with status := c }, [])

/-- The background parent branch of `otherCommands` (smallsh.c lines 372-386):
prints `Background process is <pid>` and appends the pid at index
`pidCount`. -/
def registerBackground (procs : Processes) (pid : Int) : Processes × List Msg :=
  ({ procs with backgroundPids := procs.backgroundPids ++ [pid] }, [Msg.backgroundIs pid])

/-- One iteration of the background-reaping loop in `shell` (smallsh.c lines
614-636) for one pid: `ev` is the decoded result of
`waitpid(pid, .., WNOHANG)` (`none` when it returns 0 or −1).  A signalled
pid is reported and stores signal/status-2; an exited pid stores its exit
status and is reported.  The `backgroundPids` array and `pidCount` are left
untouched. -/
def reaperStep (acc : Processes × List Msg) (pid : Int) (ev : Option WaitOutcome) :
    Processes × List Msg :=
  match ev with
  | none => acc
  | some (WaitOutcome.signaled s) =>
    ({ acc.1 with signal := s, status := 2 }, acc.2 ++ [Msg.processTermSignal pid s])
  | some (WaitOutcome.exited c) =>
    ({ acc.1 with status := c }, acc.2 ++ [Msg.processEnded pid c])

/-- The per-prompt-cycle reaping loop of `shell` (smallsh.c lines 609-636):
polls every tracked background pid in insertion order with `poll`. -/
def reaper (procs : Processes) (poll : Int → Option WaitOutcome) : Processes × List Msg :=
  procs.backgroundPids.foldl (fun acc pid => reaperStep acc pid (poll pid)) (procs, [])

/-- The message the reaper prints for one polled pid, if any. -/
def reapReport (pid : Int) : Option WaitOutcome → Option Msg
  | none => none
  | some (WaitOutcome.signaled s) => some (Msg.processTermSignal pid s)
  | some (WaitOutcome.exited c) => some (Msg.processEnded pid c)

/-- `handle_SIGTSTP` (smallsh.c lines 74-92), over the global `foreground`
flag and the rest of the shell state: flips the flag between 0 and 1 and
writes exactly one fixed message with `write(2)`; it touches nothing else. -/
def handle_SIGTSTP (fg : Int) (procs : Processes) : Int × Processes × Msg :=
  if fg = 0 then (1, procs, Msg.enteringFg) else (0, procs, Msg.exitingFg)

/-- A `processes` structure as `shell` initialises it (smallsh.c line 591):
no background pids, status 0 (the `signal` field is uninitialised in the C;
0 stands for an arbitrary fresh-heap value). -/
def procsInit : Processes := ⟨[], 0, 0⟩

/-- Example command `cat < in.txt > out.txt`. -/
def cmdInOut : Command :=
  ⟨"cat".data, ["cat".data], some ("in.txt".data), some ("out.txt".data), false⟩

/-- Example background command `sleep 30 &` with no redirects. -/
def cmdBgPlain : Command :=
  ⟨"sleep".data, ["sleep".data, "30".data], none, none, true⟩

/-- Example background command `wc < f.txt &`: input redirect only. -/
def cmdBgIn : Command :=
  ⟨"wc".data, ["wc".data], some ("f.txt".data), none, true⟩

/-- Example foreground command `ls` with no redirects. -/
def cmdFgPlain : Command :=
  ⟨"ls".data, ["ls".data], none, none, false⟩

/-- A job table tracking the single background pid 42. -/
def procsOne : Processes := ⟨[42], 0, 0⟩

/-- A poll in which every pid has exited with status 0. -/
def pollExit0 : Int → Option WaitOutcome := fun _ => some (WaitOutcome.exited 0)

/-- A job table with a stale status and signal, for frame-effect checks. -/
def procsStale : Processes := ⟨[5], 3, 2⟩

/-- A job table tracking the single background pid 7. -/
def procsSeven : Processes := ⟨[7], 0, 0⟩

/-- A poll in which every pid was killed by signal 11. -/
def pollSig11 : Int → Option WaitOutcome := fun _ => some (WaitOutcome.signaled 11)

/-- The system calls of `exitShell` are exactly one `kill(p, SIGKILL)` per
tracked pid, in order. -/
theorem killFold (l : List Int) (acc : List Action) :
    l.foldl (fun a p => a ++ [Action.kill p 9]) acc =
      acc ++ l.map (fun p => Action.kill p 9) := by
  induction l generalizing acc with
  | nil => simp
  | cons p t ih => simp [List.foldl_cons, ih]

/-- The reaping loop never changes the `backgroundPids` list. -/
theorem reaperFold_pids (poll : Int → Option WaitOutcome) (l : List Int)
    (acc : Processes × List Msg) :
    (l.foldl (fun a pid => reaperStep a pid (poll pid)) acc).1.backgroundPids =
      acc.1.backgroundPids := by
  induction l generalizing acc with
  | nil => rfl
  | cons p t ih =>
    rw [List.foldl_cons, ih]
    cases hp : poll p with
    | none => rfl
    | some w => cases w <;> rfl

/-- The reaping loop prints exactly one report per pid whose non-blocking
poll observed a termination, in insertion order. -/
theorem reaperFold_msgs (poll : Int → Option WaitOutcome) (l : List Int)
    (acc : Processes × List Msg) :
    (l.foldl (fun a pid => reaperStep a pid (poll pid)) acc).2 =
      acc.2 ++ l.filterMap (fun p => reapReport p (poll p)) := by
  induction l generalizing acc with
  | nil => simp
  | cons p t ih =>
    rw [List.foldl_cons, ih, List.filterMap_cons]
    cases hp : poll p with
    | none => rfl
    | some w => cases w <;> simp [reaperStep, reapReport]

/-- Every character of an all-space line is dropped by the token scan. -/
theorem dropWhile_spaces_eq_nil (l : List Char) (h : ∀ c ∈ l, c = ' ') :
    l.dropWhile (fun c => c == ' ') = [] := by
  induction l with
  | nil => rfl
  | cons c t ih =>
    have hc : c = ' ' := h c (List.mem_cons_self c t)
    subst hc
    have ht := ih (fun x hx => h x (List.mem_cons_of_mem _ hx))
    simpa [List.dropWhile_cons] using ht

/-- Invariant of the token-classification loop: the background flag becomes
set only by a final `&` token with the foreground flag 0, and a `&` token is
never appended to the argument list. -/
theorem buildLoop_inv :
    ∀ (n : Nat) (fg : Int) (ts : List (List Char)), ts.length ≤ n →
      ∀ (st st2 : BuildState), buildLoop fg ts st = some st2 →
        (st2.ampersand = st.ampersand ∨
          (fg = 0 ∧ ts.getLast? = some ("&".data) ∧ st2.ampersand = true)) ∧
        (("&".data) ∉ st.arguments → ("&".data) ∉ st2.arguments) := by
  intro n
  induction n with
  | zero =>
    intro fg ts hlen st st2 h
    have hts : ts = [] := List.eq_nil_of_length_eq_zero (Nat.le_zero.mp hlen)
    subst hts
    cases h
    exact ⟨Or.inl rfl, fun hh => hh⟩
  | succ n ih =>
    intro fg ts hlen st st2 h
    cases ts with
    | nil =>
      cases h
      exact ⟨Or.inl rfl, fun hh => hh⟩
    | cons t rest =>
      unfold buildLoop at h
      by_cases h1 : t = ("<".data)
      · rw [if_pos h1] at h
        cases rest with
        | nil => exact absurd h (by simp)
        | cons f r2 =>
          obtain ⟨ha, hb⟩ := ih fg r2 (by simp at hlen; omega)
            { st with inputFile := some f } st2 h
          refine ⟨?_, hb⟩
          rcases ha with ha | ⟨hz, hl, hamp⟩
          · exact Or.inl ha
          · refine Or.inr ⟨hz, ?_, hamp⟩
            cases r2 with
            | nil => cases hl
            | cons a b => rw [List.getLast?_cons_cons, List.getLast?_cons_cons]; exact hl
      · rw [if_neg h1] at h
        by_cases h2 : t = (">".data)
        · rw [if_pos h2] at h
          cases rest with
          | nil => exact absurd h (by simp)
          | cons f r2 =>
            obtain ⟨ha, hb⟩ := ih fg r2 (by simp at hlen; omega)
              { st with outputFile := some f } st2 h
            refine ⟨?_, hb⟩
            rcases ha with ha | ⟨hz, hl, hamp⟩
            · exact Or.inl ha
            · refine Or.inr ⟨hz, ?_, hamp⟩
              cases r2 with
              | nil => cases hl
              | cons a b => rw [List.getLast?_cons_cons, List.getLast?_cons_cons]; exact hl
        · rw [if_neg h2] at h
          by_cases h3 : t = ("&".data)
          · rw [if_pos h3] at h
            cases rest with
            | nil =>
              injection h with h
              subst h
              by_cases hfg : fg = 0
              · rw [if_pos hfg]
                subst h3
                exact ⟨Or.inr ⟨hfg, rfl, rfl⟩, fun hh => hh⟩
              · rw [if_neg hfg]
                exact ⟨Or.inl rfl, fun hh => hh⟩
            | cons r rs =>
              obtain ⟨ha, hb⟩ := ih fg (r :: rs) (by simp at hlen ⊢; omega) st st2 h
              refine ⟨?_, hb⟩
              rcases ha with ha | ⟨hz, hl, hamp⟩
              · exact Or.inl ha
              · exact Or.inr ⟨hz, by rw [List.getLast?_cons_cons]; exact hl, hamp⟩
          · rw [if_neg h3] at h
            obtain ⟨ha, hb⟩ := ih fg rest (by simp at hlen; omega)
              { st with arguments := st.arguments ++ [t] } st2 h
            constructor
            · rcases ha with ha | ⟨hz, hl, hamp⟩
              · exact Or.inl ha
              · refine Or.inr ⟨hz, ?_, hamp⟩
                cases rest with
                | nil => cases hl
                | cons a b => rw [List.getLast?_cons_cons]; exact hl
            · intro hn
              refine hb ?_
              rw [List.mem_append]
              rintro (hc | hc)
              · exact hn hc
              · rw [List.mem_singleton] at hc
                exact h3 hc.symm

/-- C1: the claim says every one of the `k` occurrences of `$$` in a line is
replaced, left to right, by the shell's pid string with no other characters
altered.  The code disagrees: on the line `a$$b$$c` with pid string `123` the
expansion stage of `parseInput` returns `a123b` — only the first occurrence is
substituted and everything from the second occurrence on is dropped, because
`strtok(inputCopy, "$$")` splits on single `$` characters and truncates the
scanned buffer at the first token. -/
theorem dollar_expansion_drops_tail :
    expandDollars ("123".data) ("a$$b$$c".data) = some ("a123b".data) ∧
      expandDollars ("123".data) ("a$$b$$c".data) ≠ some ("a123b123c".data) := by
  constructor
  · rfl
  · decide

/-- C2: the claim says that after a foreground command exits with any code
`n` between 0 and 255, `status` prints `exit value n`.  The code disagrees
for every `n ≥ 2`: after a foreground exit with code 5 the stored status is 5,
and `statusShell` prints `terminated by signal <signal>` (here the stale
signal field 0), because only status values 0 and 1 are printed as exit
values. -/
theorem status_after_exit_code_five :
    statusMsg ((foregroundUpdate procsInit (WaitOutcome.exited 5)).1) = Msg.termBySignal 0 ∧
      statusMsg ((foregroundUpdate procsInit (WaitOutcome.exited 5)).1) ≠ Msg.exitValue 5 := by
  decide

/-- C3: the claim says an output-redirect open failure is reported, sets the
status to 1 and abandons the command before the fork.  The code disagrees:
for `cat < in.txt > out.txt` where the input file opens fine (descriptor 3)
and the output open fails (−1), the opening stage tests `sourceFD` instead of
`targetFD`, so nothing is printed, the status stays 0, the command is not
abandoned, and the shell goes on to fork with `targetFD = -1`. -/
theorem output_redirect_failure_not_abandoned :
    (openingStage cmdInOut 0 (fun _ => 3) (fun _ => -1) 0 0).abandoned = false ∧
      (openingStage cmdInOut 0 (fun _ => 3) (fun _ => -1) 0 0).status = 0 ∧
      (openingStage cmdInOut 0 (fun _ => 3) (fun _ => -1) 0 0).printed = [] ∧
      (openingStage cmdInOut 0 (fun _ => 3) (fun _ => -1) 0 0).targetFD = -1 := by
  decide

/-- C4: the claim says a background command with unspecified redirects has its
standard input and output attached to the null device in the child.  The code
disagrees: for `sleep 30 &` (no redirects, null-device opens returning
descriptors 7 and 8) the child performs no `dup2` at all — duplication is
guarded on the redirect fields being set — so its standard streams stay
attached to the shell's; the two null-device descriptors are merely stored in
locals, and with crossed guards: for `wc < f.txt &` the read-only null
descriptor 7 overwrites `sourceFD` (clobbering the opened input descriptor 3)
because the *output* file is missing, while `targetFD` keeps its stale value
4.  Foreground commands are indeed never substituted. -/
theorem background_null_device_not_attached :
    childDupActions cmdBgPlain 7 8 = [] ∧
      nullDeviceSubst cmdBgPlain 7 8 3 4 = (7, 8) ∧
      nullDeviceSubst cmdBgIn 7 8 3 4 = (7, 4) ∧
      (∀ nullReadFD nullWriteFD sourceFD targetFD : Int,
        nullDeviceSubst cmdFgPlain nullReadFD nullWriteFD sourceFD targetFD =
          (sourceFD, targetFD)) := by
  refine ⟨by decide, by decide, by decide, fun a b s t => rfl⟩

/-- C5 counterexample: the claim says a `&` appearing anywhere other than as
the last token is treated as an ordinary argument appended to the argument
list.  On the line `echo & hi` the code instead silently discards the middle
`&`: the dispatched command's arguments are `echo hi`, with no `&` among
them. -/
theorem mid_ampersand_dropped :
    parseInput 0 ("123".data) ("echo & hi".data) =
      ParseResult.runOther ⟨"echo".data, ["echo".data, "hi".data], none, none, false⟩ ∧
      ("&".data) ∉ ["echo".data, "hi".data] := by
  decide

/-- C6 counterexample: the claim says a pid is removed from `background_pids`
at the moment the reaper observes its termination.  With pid 42 tracked and
the non-blocking poll reporting it exited with status 0, the reaper reports
the termination yet `backgroundPids` still contains 42 afterwards: the loop
never removes anything. -/
theorem reaper_never_removes :
    (reaper procsOne pollExit0).1.backgroundPids = [42] ∧
      (reaper procsOne pollExit0).2 = [Msg.processEnded 42 0] := by
  decide

/-- C8 counterexample: the claim says a line whose first non-space content is
`#` produces no command record and dispatches nothing.  On the line ` # x`
(leading space before the `#`) the comment check `strncmp(input, "#", 1)`
sees the leading space and fails, so the code builds a command record with
program `#` and dispatches it to the executor. -/
theorem space_comment_dispatched :
    parseInput 0 ("123".data) (" # x".data) =
      ParseResult.runOther ⟨"#".data, ["#".data, "x".data], none, none, false⟩ := by
  decide

/-- C8 (amended): an input line that is empty or consists only of spaces
produces no command record and dispatches nothing (with no output at all),
and a line whose *first character* is `#` likewise produces no command record
and no output; a `#` preceded by whitespace is not a comment — such a line is
parsed and dispatched as an ordinary command (see the counterexample). -/
theorem blank_comment_noop (fg : Int) (pidString input : List Char) :
    ((∀ c ∈ input, c = ' ') →
        parseInput fg pidString input = ParseResult.noop ∧
          parseOutput (parseInput fg pidString input) = []) ∧
      (input.head? = some '#' →
        parseInput fg pidString input = ParseResult.comment ∧
          parseOutput (parseInput fg pidString input) = []) := by
  constructor
  · intro h
    have hdrop : input.dropWhile (fun c => c == ' ') = [] :=
      dropWhile_spaces_eq_nil input h
    have htok : strtokTok ' ' input = none := by
      unfold strtokTok
      rw [hdrop]
      rfl
    have hmut : strtokMut ' ' input = input := by
      unfold strtokMut
      rw [hdrop]
      rfl
    have hne : input ≠ ['\n'] := by
      intro he
      have hsp := h '\n' (by rw [he]; exact List.mem_cons_self _ _)
      exact absurd hsp (by decide)
    have hres : parseInput fg pidString input = ParseResult.noop := by
      unfold parseInput
      rw [hmut, if_neg hne]
      simp only [htok]
    exact ⟨hres, by rw [hres]; rfl⟩
  · intro h
    cases input with
    | nil => exact absurd h (by simp)
    | cons c tl =>
      have hc : c = '#' := by simpa using h
      subst hc
      have hmut2 : (strtokMut ' ' ('#' :: tl)).head? = some '#' := by
        show (if (List.dropWhile (fun c => c != ' ') tl).isEmpty = true then ('#' :: tl)
            else ('#' :: List.takeWhile (fun c => c != ' ') tl)).head? = some '#'
        rw [apply_ite List.head?]
        simp
      have hneq : strtokMut ' ' ('#' :: tl) ≠ ['\n'] := by
        intro he
        rw [he] at hmut2
        exact absurd hmut2 (by decide)
      have htok2 : strtokTok ' ' ('#' :: tl) =
          some ('#' :: tl.takeWhile (fun c => c != ' ')) := rfl
      have hres : parseInput fg pidString ('#' :: tl) = ParseResult.comment := by
        unfold parseInput
        rw [if_neg hneq]
        simp only [htok2]
        rw [if_pos hmut2]
      exact ⟨hres, by rw [hres]; rfl⟩

/-- Witness for C8 on an all-space line and a line starting with `#`. -/
theorem blank_comment_noop_w :
    parseInput 0 (['1']) ("   ".data) = ParseResult.noop ∧
      parseInput 0 (['1']) ("# hi".data) = ParseResult.comment :=
  ⟨((blank_comment_noop 0 (['1']) ("   ".data)).1 (by decide)).1,
    ((blank_comment_noop 0 (['1']) ("# hi".data)).2 (by decide)).1⟩

/-- C5 (amended): a `&` as the final token sets the background flag exactly
when the foreground-only flag is 0 (when foreground-only mode is on the `&`
is silently ignored and the command stays foreground); a `&` anywhere other
than the last position is consumed and silently discarded — the loop neither
appends it to the argument list nor changes any state — so the background
flag becomes set only by a final `&` with foreground-only mode off, and a `&`
token never enters `arguments`. -/
theorem ampersand_rule_amended (fg : Int) (ts rest : List (List Char)) (st st2 : BuildState) :
    (rest ≠ [] → buildLoop fg (("&".data) :: rest) st = buildLoop fg rest st) ∧
      (buildLoop fg [("&".data)] st =
        some (if fg = 0 then { st with ampersand := true } else st)) ∧
      (buildLoop fg ts st = some st2 → st.ampersand = false → st2.ampersand = true →
        fg = 0 ∧ ts.getLast? = some ("&".data)) ∧
      (buildLoop fg ts st = some st2 → ("&".data) ∉ st.arguments →
        ("&".data) ∉ st2.arguments) := by
  refine ⟨?_, rfl, ?_, ?_⟩
  · intro hr
    cases rest with
    | nil => exact absurd rfl hr
    | cons r rs => rfl
  · intro h hf ht
    obtain ⟨ha, _⟩ := buildLoop_inv ts.length fg ts le_rfl st st2 h
    rcases ha with ha | ⟨h1, h2, _⟩
    · rw [hf] at ha
      rw [ha] at ht
      exact absurd ht (by decide)
    · exact ⟨h1, h2⟩
  · intro h hn
    exact (buildLoop_inv ts.length fg ts le_rfl st st2 h).2 hn

/-- Witness for C5: a final `&` under foreground flag 0 sets the background
flag, and a non-final `&` is skipped with no state change. -/
theorem ampersand_rule_amended_w :
    buildLoop 0 [("&".data)] (BuildState.mk [("echo".data)] none none false) =
      some (BuildState.mk [("echo".data)] none none true) ∧
      buildLoop 0 [("&".data), ("hi".data)] (BuildState.mk [("echo".data)] none none false) =
        buildLoop 0 [("hi".data)] (BuildState.mk [("echo".data)] none none false) :=
  ⟨by
    have h := (ampersand_rule_amended 0 [] []
      (BuildState.mk [("echo".data)] none none false)
      (BuildState.mk [("echo".data)] none none false)).2.1
    simpa using h,
   (ampersand_rule_amended 0 [] [("hi".data)]
      (BuildState.mk [("echo".data)] none none false)
      (BuildState.mk [("echo".data)] none none false)).1 (by simp)⟩

/-- C6 (amended): `background_pids` is insertion-ordered (each registration
appends at index `pidCount`) and the reaper never removes a pid from it; when
the per-cycle non-blocking check observes a pid's termination the reaper
reports it (`Process <pid> terminated with signal <n>` or
`Process <pid> ended with status <c>`, one report per observed termination,
in insertion order) and updates `last_status` accordingly — but the pid
remains in the table afterwards. -/
theorem reaper_behavior_amended (procs : Processes) (poll : Int → Option WaitOutcome) :
    (reaper procs poll).1.backgroundPids = procs.backgroundPids ∧
      (reaper procs poll).2 =
        procs.backgroundPids.filterMap (fun p => reapReport p (poll p)) ∧
      (∀ pid, (registerBackground procs pid).1.backgroundPids =
          procs.backgroundPids ++ [pid] ∧
        (registerBackground procs pid).2 = [Msg.backgroundIs pid]) ∧
      (∀ p c, procs.backgroundPids = [p] → poll p = some (WaitOutcome.exited c) →
        (reaper procs poll).1.status = c) ∧
      (∀ p s, procs.backgroundPids = [p] → poll p = some (WaitOutcome.signaled s) →
        (reaper procs poll).1.status = 2 ∧ (reaper procs poll).1.signal = s) := by
  refine ⟨reaperFold_pids poll procs.backgroundPids (procs, []), ?_,
    fun pid => ⟨rfl, rfl⟩, ?_, ?_⟩
  · simpa using reaperFold_msgs poll procs.backgroundPids (procs, [])
  · intro p c h1 h2
    show (procs.backgroundPids.foldl
      (fun acc pid => reaperStep acc pid (poll pid)) (procs, [])).1.status = c
    rw [h1, List.foldl_cons, List.foldl_nil, h2]
    rfl
  · intro p s h1 h2
    constructor
    · show (procs.backgroundPids.foldl
        (fun acc pid => reaperStep acc pid (poll pid)) (procs, [])).1.status = 2
      rw [h1, List.foldl_cons, List.foldl_nil, h2]
      rfl
    · show (procs.backgroundPids.foldl
        (fun acc pid => reaperStep acc pid (poll pid)) (procs, [])).1.signal = s
      rw [h1, List.foldl_cons, List.foldl_nil, h2]
      rfl

/-- Witness for C6: with pid 7 tracked and the poll observing death by signal
11, the reaper stores status 2 and signal 11. -/
theorem reaper_behavior_amended_w :
    (reaper procsSeven pollSig11).1.status = 2 ∧
      (reaper procsSeven pollSig11).1.signal = 11 :=
  (reaper_behavior_amended procsSeven pollSig11).2.2.2.2 7 11 rfl rfl

/-- C7: dispatching any of the three built-ins (`exit`, `cd` — including on a
nonexistent path, where `chdir` returns −1 — and `status`) leaves the stored
`status` and `signal` fields of the job table unchanged. -/
theorem builtins_preserve_status (res : ParseResult) (chdirResult : Int) (procs : Processes)
    (out : Processes × List Msg × List Action)
    (h : runBuiltin res chdirResult procs = some out) :
    out.1.status = procs.status ∧ out.1.signal = procs.signal := by
  cases res with
  | crash => exact Option.noConfusion h
  | blankEcho => exact Option.noConfusion h
  | noop => exact Option.noConfusion h
  | comment => exact Option.noConfusion h
  | runOther cmd => exact Option.noConfusion h
  | runExit => cases h; exact ⟨rfl, rfl⟩
  | runCd cmd => cases h; exact ⟨rfl, rfl⟩
  | runStatus => cases h; exact ⟨rfl, rfl⟩

/-- Witness for C7: the `status` builtin on a stale job table reports
`terminated by signal 2` and leaves status 3 and signal 2 in place. -/
theorem builtins_preserve_status_w :
    ((procsStale, [Msg.termBySignal 2], ([] : List Action))).1.status = procsStale.status ∧
      ((procsStale, [Msg.termBySignal 2], ([] : List Action))).1.signal = procsStale.signal :=
  builtins_preserve_status ParseResult.runStatus 0 procsStale
    (procsStale, [Msg.termBySignal 2], []) (by rfl)

/-- C9: when the `exit` builtin is dispatched, the shell issues
`kill(p, SIGKILL)` for every pid tracked in `background_pids` (and nothing
but kill calls — in particular no blocking `waitpid`), leaves the job table
alone, and the line `exit` indeed dispatches to it. -/
theorem exit_kills_all_background (procs : Processes) :
    (∀ p, p ∈ procs.backgroundPids → Action.kill p 9 ∈ exitShellActions procs) ∧
      (∀ a, a ∈ exitShellActions procs →
        ∃ p, p ∈ procs.backgroundPids ∧ a = Action.kill p 9) ∧
      runBuiltin ParseResult.runExit 0 procs = some (procs, [], exitShellActions procs) ∧
      parseInput 0 (['1']) ("exit".data) = ParseResult.runExit := by
  have hfold : exitShellActions procs =
      procs.backgroundPids.map (fun p => Action.kill p 9) := by
    simpa using killFold procs.backgroundPids []
  refine ⟨?_, ?_, rfl, by decide⟩
  · intro p hp
    rw [hfold]
    exact List.mem_map_of_mem _ hp
  · intro a ha
    rw [hfold] at ha
    obtain ⟨p, hp, rfl⟩ := List.mem_map.mp ha
    exact ⟨p, hp, rfl⟩

/-- Witness for C9: with pid 42 tracked, `exit` issues `kill(42, SIGKILL)`. -/
theorem exit_kills_all_background_w :
    Action.kill 42 9 ∈ exitShellActions procsOne :=
  (exit_kills_all_background procsOne).1 42 (by decide)

/-- C10: for either reachable value of the `foreground` flag (the program
only ever stores 0 or 1 into it), two invocations of the suspend-signal
handler restore the flag to its original value; each invocation leaves the
rest of the shell state untouched and writes exactly one of the two fixed
messages. -/
theorem sigtstp_toggle_involution (fg : Int) (p q : Processes)
    (h : fg = 0 ∨ fg = 1) :
    (handle_SIGTSTP (handle_SIGTSTP fg p).1 q).1 = fg ∧
      (handle_SIGTSTP fg p).2.1 = p ∧
      ((handle_SIGTSTP fg p).2.2 = Msg.enteringFg ∨
        (handle_SIGTSTP fg p).2.2 = Msg.exitingFg) := by
  rcases h with h | h <;> subst h
  · exact ⟨rfl, rfl, Or.inl rfl⟩
  · exact ⟨rfl, rfl, Or.inr rfl⟩

/-- Witness for C10 at flag value 0. -/
theorem sigtstp_toggle_involution_w :
    (handle_SIGTSTP (handle_SIGTSTP 0 procsStale).1 procsStale).1 = 0 ∧
      (handle_SIGTSTP 0 procsStale).2.1 = procsStale ∧
      ((handle_SIGTSTP 0 procsStale).2.2 = Msg.enteringFg ∨
        (handle_SIGTSTP 0 procsStale).2.2 = Msg.exitingFg) :=
  sigtstp_toggle_involution 0 procsStale procsStale (Or.inl rfl)

end Smallsh
